import Mathlib

/-!
Shallow embedding of the Nuesicgen music-generation module
(src/unnamed/part_000 and src/unnamed/part_001).

Numbers are modelled as exact rationals (`ℚ`) for the real-valued fields
and integers (`ℤ`) for pitches, velocities, tempo and duration-in-bars.
The ambient `Math.random()` source is made explicit: each loop iteration
of `generateMelody` consumes one `Draw` record, holding the four uniform
draws the iteration performs (pitch variation, octave-jump test, rhythm
factor, velocity), taken from a stream `r : ℕ → Draw`.
-/

/-- Parameter record `GenerationParams` from the source: genre tag, creativity level,
tempo (bpm), key tag and duration in bars. -/
structure GenerationParams where
  genre : String
  creativity : ℚ
  tempo : ℤ
  key : String
  duration : ℤ
  deriving Repr, DecidableEq

/-- Note record from the source: a single generated note event. -/
structure Note where
  pitch : ℤ
  duration : ℚ
  velocity : ℤ
  time : ℚ
  deriving Repr, DecidableEq

instance : Inhabited Note := ⟨⟨0, 0, 0, 0⟩⟩

/-- Melody record from the source: the generated note list plus metadata
copied from the input parameters. -/
structure Melody where
  notes : List Note
  tempo : ℤ
  key : String
  genre : String
  deriving Repr, DecidableEq

/-- One loop iteration's worth of `Math.random()` outcomes, in the order
the source draws them. -/
structure Draw where
  pitchU : ℚ
  octaveU : ℚ
  rhythmU : ℚ
  velU : ℚ

/-- An entry of the source's `genreSettings` table. -/
structure GenreSettings where
  jumpRange : ℚ
  rhythmVariety : ℚ
  deriving Repr, DecidableEq

/-- The C-major scale, also the fallback of the `scalePatterns` lookup. -/
def cMajorScale : List ℤ := [60, 62, 64, 65, 67, 69, 71, 72]

/-- Table `scalePatterns` of the source mapping key tags to scales. -/
def scalePatterns : List (String × List ℤ) :=
  [("C", cMajorScale),
   ("G", [67, 69, 71, 72, 74, 76, 78, 79]),
   ("D", [62, 64, 66, 67, 69, 71, 73, 74]),
   ("A", [69, 71, 73, 74, 76, 78, 80, 81]),
   ("Am", [69, 71, 72, 74, 76, 77, 79, 81]),
   ("Em", [64, 66, 67, 69, 71, 72, 74, 76]),
   ("Dm", [62, 64, 65, 67, 69, 70, 72, 74])]

/-- The `classical` entry of the genre table, also the lookup fallback. -/
def classicalSettings : GenreSettings := ⟨3, 3/10⟩

/-- Table `genreSettings` of the source. -/
def genreSettings : List (String × GenreSettings) :=
  [("classical", classicalSettings),
   ("jazz", ⟨5, 7/10⟩),
   ("electronic", ⟨6, 4/5⟩),
   ("ambient", ⟨2, 1/5⟩),
   ("minimalist", ⟨1, 1/10⟩),
   ("baroque", ⟨4, 2/5⟩)]

/-- JavaScript `Array.prototype.indexOf`: first index of `x` in `l`,
or `-1` when absent. -/
def jsIndexOf (l : List ℤ) (x : ℤ) : ℤ :=
  match l.findIdx? (fun y => y = x) with
  | some i => (i : ℤ)
  | none => -1

/-- The body of the generation loop of `generateMelody` (part_000),
unrolled as structural recursion on the remaining note count.
`i` is the loop counter (indexing the draw stream), `currentTime` and
`lastPitch` are the loop-carried state of the source. -/
def genNotes (scale : List ℤ) (settings : GenreSettings) (creativity : ℚ)
    (r : ℕ → Draw) : ℕ → ℕ → ℚ → ℤ → List Note
  | 0, _, _, _ => []
  | fuel + 1, i, currentTime, lastPitch =>
    let d := r i
    let pitchVariation : ℤ := ⌊(d.pitchU - 1/2) * 2 * settings.jumpRange * creativity⌋
    let scaleIndex0 : ℤ := jsIndexOf scale lastPitch
    let scaleIndex1 : ℤ := if scaleIndex0 = -1 then 0 else scaleIndex0
    let scaleIndex : ℤ := max 0 (min ((scale.length : ℤ) - 1) (scaleIndex1 + pitchVariation))
    let pitch : ℤ := scale.getD scaleIndex.toNat 0 + (if d.octaveU > 4/5 then 12 else 0)
    let rhythmFactor : ℚ := 1 + (d.rhythmU - 1/2) * settings.rhythmVariety * creativity
    let dur : ℚ := max (1/8) ((1/4) * rhythmFactor)
    let vel : ℤ := ⌊(60 : ℚ) + d.velU * 40 * creativity⌋
    { pitch := pitch, duration := dur, velocity := vel, time := currentTime } ::
      genNotes scale settings creativity r fuel (i + 1) (currentTime + dur) pitch

/-- Generator `generateMelody` from part_000, with the random source explicit.
The artificial `setTimeout` delay is dropped: it affects no output. -/
def generateMelody (params : GenerationParams) (r : ℕ → Draw) : Melody :=
  let scale := (scalePatterns.lookup params.key).getD cMajorScale
  let settings := (genreSettings.lookup params.genre).getD classicalSettings
  let noteCount := (params.duration * 4).toNat
  let lastPitch := scale.getD (scale.length / 2) 0
  { notes := genNotes scale settings params.creativity r noteCount 0 0 lastPitch,
    tempo := params.tempo,
    key := params.key,
    genre := params.genre }

/-- A scheduled oscillator voice of `playMIDI` (part_000): one per note,
carrying the per-note scheduling data the source computes.  Start and end
offsets use the source's fixed half-speed playback factor; the peak gain
is `velocity / 127 * 0.5`.  The pitch-to-frequency map is irrational and
kept as the pitch itself. -/
structure Voice where
  pitch : ℤ
  startTime : ℚ
  stopTime : ℚ
  gainPeak : ℚ
  deriving Repr, DecidableEq

/-- Playback entry `playMIDI` from part_000, modelled by the list of voices it schedules.
The audio element argument is `Option Unit`: `none` is the null/absent
output target, for which the source returns before touching the audio
context. -/
def playMIDI (melody : Melody) (audioElement : Option Unit) : List Voice :=
  match audioElement with
  | none => []
  | some _ =>
    melody.notes.map fun note =>
      { pitch := note.pitch,
        startTime := note.time * (1/2),
        stopTime := note.time * (1/2) + note.duration * (1/2),
        gainPeak := note.velocity / 127 * (1/2) }

/-- The 14 header bytes written by `createSimpleMIDI`. -/
def midiHeader : List ℕ :=
  [0x4D, 0x54, 0x68, 0x64, 0x00, 0x00, 0x00, 0x06, 0x00, 0x00, 0x00, 0x01, 0x00, 0x60]

/-- The 12 track bytes written by `createSimpleMIDI`: "MTrk", a declared
length field of 0x20, and the end-of-track marker. -/
def midiTrackData : List ℕ :=
  [0x4D, 0x54, 0x72, 0x6B, 0x00, 0x00, 0x00, 0x20, 0x00, 0xFF, 0x2F, 0x00]

/-- Encoder `createSimpleMIDI` from the source: concatenates the fixed header and
track byte blocks; the melody argument is never read. -/
def createSimpleMIDI (_melody : Melody) : List ℕ :=
  midiHeader ++ midiTrackData

namespace V1

/-- The C-major scale of part_001's copy of the table. -/
def cMajorScale : List ℤ := [60, 62, 64, 65, 67, 69, 71, 72]

/-- Table `scalePatterns` as written in part_001. -/
def scalePatterns : List (String × List ℤ) :=
  [("C", cMajorScale),
   ("G", [67, 69, 71, 72, 74, 76, 78, 79]),
   ("D", [62, 64, 66, 67, 69, 71, 73, 74]),
   ("A", [69, 71, 73, 74, 76, 78, 80, 81]),
   ("Am", [69, 71, 72, 74, 76, 77, 79, 81]),
   ("Em", [64, 66, 67, 69, 71, 72, 74, 76]),
   ("Dm", [62, 64, 65, 67, 69, 70, 72, 74])]

/-- The `classical` genre entry of part_001. -/
def classicalSettings : GenreSettings := ⟨3, 3/10⟩

/-- Table `genreSettings` as written in part_001. -/
def genreSettings : List (String × GenreSettings) :=
  [("classical", classicalSettings),
   ("jazz", ⟨5, 7/10⟩),
   ("electronic", ⟨6, 4/5⟩),
   ("ambient", ⟨2, 1/5⟩),
   ("minimalist", ⟨1, 1/10⟩),
   ("baroque", ⟨4, 2/5⟩)]

/-- The generation loop of part_001's `generateMelody`, transcribed
independently of part_000's. -/
def genNotes (scale : List ℤ) (settings : GenreSettings) (creativity : ℚ)
    (r : ℕ → Draw) : ℕ → ℕ → ℚ → ℤ → List Note
  | 0, _, _, _ => []
  | fuel + 1, i, currentTime, lastPitch =>
    let d := r i
    let pitchVariation : ℤ := ⌊(d.pitchU - 1/2) * 2 * settings.jumpRange * creativity⌋
    let scaleIndex0 : ℤ := jsIndexOf scale lastPitch
    let scaleIndex1 : ℤ := if scaleIndex0 = -1 then 0 else scaleIndex0
    let scaleIndex : ℤ := max 0 (min ((scale.length : ℤ) - 1) (scaleIndex1 + pitchVariation))
    let pitch : ℤ := scale.getD scaleIndex.toNat 0 + (if d.octaveU > 4/5 then 12 else 0)
    let rhythmFactor : ℚ := 1 + (d.rhythmU - 1/2) * settings.rhythmVariety * creativity
    let dur : ℚ := max (1/8) ((1/4) * rhythmFactor)
    let vel : ℤ := ⌊(60 : ℚ) + d.velU * 40 * creativity⌋
    { pitch := pitch, duration := dur, velocity := vel, time := currentTime } ::
      genNotes scale settings creativity r fuel (i + 1) (currentTime + dur) pitch

/-- Generator `generateMelody` from part_001, with the random source explicit. -/
def generateMelody (params : GenerationParams) (r : ℕ → Draw) : Melody :=
  let scale := (V1.scalePatterns.lookup params.key).getD V1.cMajorScale
  let settings := (V1.genreSettings.lookup params.genre).getD V1.classicalSettings
  let noteCount := (params.duration * 4).toNat
  let lastPitch := scale.getD (scale.length / 2) 0
  { notes := V1.genNotes scale settings params.creativity r noteCount 0 0 lastPitch,
    tempo := params.tempo,
    key := params.key,
    genre := params.genre }

end V1

/-! ### Helper lemmas about the generation loop -/

/-- The loop emits exactly one note per iteration. -/
theorem genNotes_length (scale : List ℤ) (settings : GenreSettings) (creativity : ℚ)
    (r : ℕ → Draw) (fuel i : ℕ) (t : ℚ) (p : ℤ) :
    (genNotes scale settings creativity r fuel i t p).length = fuel := by
  induction fuel generalizing i t p with
  | zero => rfl
  | succ n ih => simp [genNotes, ih]

/-- A note list is `Chained t` when the first note starts at `t` and each
note starts exactly where the previous one ends. -/
def Chained : ℚ → List Note → Prop
  | _, [] => True
  | t, n :: rest => n.time = t ∧ Chained (t + n.duration) rest

/-- The loop emits a timeline chained from its starting time. -/
theorem genNotes_chained (scale : List ℤ) (settings : GenreSettings) (creativity : ℚ)
    (r : ℕ → Draw) (fuel i : ℕ) (t : ℚ) (p : ℤ) :
    Chained t (genNotes scale settings creativity r fuel i t p) := by
  induction fuel generalizing i t p with
  | zero => trivial
  | succ n ih => exact ⟨rfl, ih _ _ _⟩

/-- In a chained list, each note's end time is the next note's start time. -/
theorem Chained.adjacent (l : List Note) (t : ℚ) (hc : Chained t l) (i : ℕ)
    (h : i + 1 < l.length) :
    (l.get ⟨i, Nat.lt_of_succ_lt h⟩).time + (l.get ⟨i, Nat.lt_of_succ_lt h⟩).duration
      = (l.get ⟨i + 1, h⟩).time := by
  induction l generalizing t i with
  | nil => simp at h
  | cons a l ih =>
    obtain ⟨ha, hrest⟩ := hc
    cases i with
    | zero =>
      cases l with
      | nil => simp at h
      | cons b l2 =>
        obtain ⟨hb, _⟩ := hrest
        simp [List.get, ha, hb]
    | succ j =>
      exact ih (t + a.duration) hrest j (by simpa using h)

/-- In a chained list, the first note starts at the chain's start time. -/
theorem Chained.head_time (l : List Note) (t : ℚ) (hc : Chained t l)
    (h : 0 < l.length) : (l.get ⟨0, h⟩).time = t := by
  cases l with
  | nil => simp at h
  | cons a l2 => exact hc.1

/-- Every note the loop emits has duration at least an eighth note, and,
when the velocity draws are uniform in `[0,1)` and creativity is positive,
a velocity in `[60, 60 + 40*creativity)`. -/
theorem genNotes_mem_bounds (scale : List ℤ) (settings : GenreSettings) (creativity : ℚ)
    (r : ℕ → Draw) (hc : 0 < creativity)
    (hr : ∀ j, 0 ≤ (r j).velU ∧ (r j).velU < 1)
    (fuel i : ℕ) (t : ℚ) (p : ℤ) :
    ∀ n ∈ genNotes scale settings creativity r fuel i t p,
      1/8 ≤ n.duration ∧ 60 ≤ n.velocity ∧ (n.velocity : ℚ) < 60 + 40 * creativity := by
  induction fuel generalizing i t p with
  | zero => intro n hn; simp [genNotes] at hn
  | succ m ih =>
    intro n hn
    simp only [genNotes, List.mem_cons] at hn
    rcases hn with hn | hn
    · subst hn
      refine ⟨le_max_left _ _, ?_, ?_⟩
      · show (60 : ℤ) ≤ ⌊(60 : ℚ) + (r i).velU * 40 * creativity⌋
        rw [Int.le_floor]
        push_cast
        have h1 : 0 ≤ (r i).velU * 40 * creativity := by
          have := (hr i).1
          positivity
        linarith
      · show ((⌊(60 : ℚ) + (r i).velU * 40 * creativity⌋ : ℤ) : ℚ) < 60 + 40 * creativity
        have hfl : (((⌊(60 : ℚ) + (r i).velU * 40 * creativity⌋ : ℤ)) : ℚ)
            ≤ (60 : ℚ) + (r i).velU * 40 * creativity := Int.floor_le _
        have h2 : (r i).velU * 40 * creativity < 1 * 40 * creativity := by
          have hu := (hr i).2
          have h40 : (0 : ℚ) < 40 * creativity := by positivity
          calc (r i).velU * 40 * creativity = (r i).velU * (40 * creativity) := by ring
            _ < 1 * (40 * creativity) := by
                exact mul_lt_mul_of_pos_right hu h40
            _ = 1 * 40 * creativity := by ring
        linarith
    · exact ih _ _ _ n hn

/-- Every note the loop emits over a nonempty scale has a pitch that is a
scale element, possibly raised one octave. -/
theorem genNotes_mem_pitch (scale : List ℤ) (settings : GenreSettings) (creativity : ℚ)
    (r : ℕ → Draw) (hs : scale ≠ [])
    (fuel i : ℕ) (t : ℚ) (p : ℤ) :
    ∀ n ∈ genNotes scale settings creativity r fuel i t p,
      n.pitch ∈ scale ∨ n.pitch - 12 ∈ scale := by
  induction fuel generalizing i t p with
  | zero => intro n hn; simp [genNotes] at hn
  | succ m ih =>
    intro n hn
    simp only [genNotes, List.mem_cons] at hn
    rcases hn with hn | hn
    · subst hn
      have hlen : 1 ≤ scale.length := List.length_pos.mpr hs
      set x : ℤ := (if jsIndexOf scale p = -1 then 0 else jsIndexOf scale p) +
        ⌊((r i).pitchU - 1/2) * 2 * settings.jumpRange * creativity⌋ with hx
      have hmin : min ((scale.length : ℤ) - 1) x ≤ (scale.length : ℤ) - 1 :=
        min_le_left _ _
      have hub : max 0 (min ((scale.length : ℤ) - 1) x) ≤ (scale.length : ℤ) - 1 :=
        max_le (by omega) hmin
      have hidx : (max 0 (min ((scale.length : ℤ) - 1) x)).toNat < scale.length := by
        omega
      have hgetD : scale.getD (max 0 (min ((scale.length : ℤ) - 1) x)).toNat 0
          = scale.get ⟨_, hidx⟩ := by
        rw [List.getD_eq_getElem _ _ hidx]
        simp
      have hmem : scale.getD (max 0 (min ((scale.length : ℤ) - 1) x)).toNat 0 ∈ scale := by
        rw [hgetD]; exact List.get_mem _ _ _
      by_cases hoct : (r i).octaveU > 4/5
      · right
        simp only [hoct, if_pos]
        simpa using hmem
      · left
        simp only [hoct, if_neg, not_false_iff]
        simpa using hmem
    · exact ih _ _ _ n hn

/-- Every note the loop emits has duration at least `1/8`, for every
outcome of the draws. -/
theorem genNotes_mem_duration (scale : List ℤ) (settings : GenreSettings) (creativity : ℚ)
    (r : ℕ → Draw) (fuel i : ℕ) (t : ℚ) (p : ℤ) :
    ∀ n ∈ genNotes scale settings creativity r fuel i t p, 1/8 ≤ n.duration := by
  induction fuel generalizing i t p with
  | zero => intro n hn; simp [genNotes] at hn
  | succ m ih =>
    intro n hn
    simp only [genNotes, List.mem_cons] at hn
    rcases hn with hn | hn
    · subst hn; exact le_max_left _ _
    · exact ih _ _ _ n hn

/-- In a nonempty chained list, the default-valued head starts at the
chain's start time. -/
theorem chained_headI (l : List Note) (t : ℚ) (hc : Chained t l)
    (h : 0 < l.length) : l.headI.time = t := by
  cases l with
  | nil => simp at h
  | cons a l2 => exact hc.1

/-- The two transcriptions of the generation loop agree step for step. -/
theorem genNotes_eq_v1 (scale : List ℤ) (settings : GenreSettings) (creativity : ℚ)
    (r : ℕ → Draw) (fuel i : ℕ) (t : ℚ) (p : ℤ) :
    genNotes scale settings creativity r fuel i t p
      = V1.genNotes scale settings creativity r fuel i t p := by
  induction fuel generalizing i t p with
  | zero => rfl
  | succ m ih =>
    simp only [genNotes, V1.genNotes]
    rw [ih]

/-- Canonicalization of a genre tag: known tags are kept, unknown ones
become `classical` (the table fallback). -/
def canonGenre (g : String) : String :=
  if (genreSettings.lookup g).isSome then g else "classical"

/-- Canonicalization of a key tag: known tags are kept, unknown ones
become `C` (the table fallback). -/
def canonKey (k : String) : String :=
  if (scalePatterns.lookup k).isSome then k else "C"

/-- Shared concrete draw stream used by witness instantiations. -/
def constDraw : ℕ → Draw := fun _ => ⟨1/2, 1/2, 1/2, 1/2⟩

/-! ### Claim theorems -/

/-- C1: for every parameter record with a positive duration, the melody
returned by `generateMelody` has exactly `duration * 4` notes, for every
outcome of the random draws. -/
theorem C1_note_count (p : GenerationParams) (r : ℕ → Draw) (h : 0 < p.duration) :
    (((generateMelody p r).notes.length : ℤ)) = p.duration * 4 := by
  simp only [generateMelody, genNotes_length]
  omega

/-- Witness for C1 at a concrete input. -/
theorem C1_note_count_witness :
    (0 : ℤ) < (2 : ℤ) ∧
      (((generateMelody ⟨"jazz", 1/2, 120, "G", 2⟩ constDraw).notes.length : ℤ)
        = (2 : ℤ) * 4) :=
  ⟨by norm_num, C1_note_count ⟨"jazz", 1/2, 120, "G", 2⟩ constDraw (by norm_num)⟩

/-- C3, as the claim states it, is false: the encoder's buffer has 26
bytes, not 32, already on the empty melody. -/
theorem C3_encoder_length_counterexample :
    ¬ ((createSimpleMIDI { notes := [], tempo := 120, key := "C", genre := "classical" }).length
        = 32) := by
  decide

/-- C3 (amended): for every melody, the byte buffer returned by
`createSimpleMIDI` has length exactly 26: a 14-byte header block followed
by a 12-byte track block. -/
theorem C3_encoder_length (m : Melody) : (createSimpleMIDI m).length = 26 := rfl

/-- C4: the encoder returns byte-for-byte identical buffers for any two
melodies; its output is independent of the melody's content. -/
theorem C4_encoder_content_independent (m1 m2 : Melody) :
    createSimpleMIDI m1 = createSimpleMIDI m2 := rfl

/-- C8: `generateMelody` is total, and for non-positive duration it
returns a melody with an empty note list and the input's tempo, key and
genre. -/
theorem C8_nonpositive_duration_empty (p : GenerationParams) (r : ℕ → Draw)
    (h : p.duration ≤ 0) :
    generateMelody p r = { notes := [], tempo := p.tempo, key := p.key, genre := p.genre } := by
  have h0 : (p.duration * 4).toNat = 0 := by omega
  simp [generateMelody, h0, genNotes]

/-- Witness for C8 at a concrete input. -/
theorem C8_nonpositive_duration_empty_witness :
    ((⟨"electronic", 3/2, 100, "Em", 0⟩ : GenerationParams).duration ≤ 0) ∧
      (generateMelody ⟨"electronic", 3/2, 100, "Em", 0⟩ constDraw
        = { notes := [], tempo := 100, key := "Em", genre := "electronic" }) :=
  ⟨by norm_num,
   C8_nonpositive_duration_empty ⟨"electronic", 3/2, 100, "Em", 0⟩ constDraw (by norm_num)⟩

/-- C9: for every melody, `playMIDI` on a null/absent output target
schedules no voice at all (and, being total, cannot throw). -/
theorem C9_null_target_noop (m : Melody) : playMIDI m none = [] := rfl

/-- C2: in every generated melody the timeline has no gaps or overlaps:
each note's start time plus its duration equals the next note's start
time exactly, start times are monotone, and the first note starts at 0. -/
theorem C2_timeline (p : GenerationParams) (r : ℕ → Draw) (i : ℕ)
    (h : i + 1 < (generateMelody p r).notes.length) :
    ((generateMelody p r).notes.get ⟨i, Nat.lt_of_succ_lt h⟩).time
        ≤ ((generateMelody p r).notes.get ⟨i + 1, h⟩).time ∧
    ((generateMelody p r).notes.get ⟨i, Nat.lt_of_succ_lt h⟩).time
        + ((generateMelody p r).notes.get ⟨i, Nat.lt_of_succ_lt h⟩).duration
        = ((generateMelody p r).notes.get ⟨i + 1, h⟩).time ∧
    ∀ h0 : 0 < (generateMelody p r).notes.length,
      ((generateMelody p r).notes.get ⟨0, h0⟩).time = 0 := by
  have hch : Chained 0 (generateMelody p r).notes :=
    genNotes_chained _ _ _ _ _ _ _ _
  have hadj := Chained.adjacent _ _ hch i h
  have hdur : 1/8 ≤ ((generateMelody p r).notes.get ⟨i, Nat.lt_of_succ_lt h⟩).duration :=
    genNotes_mem_duration _ _ _ _ _ _ _ _ _ (List.get_mem _ _ _)
  exact ⟨by linarith, hadj, fun h0 => Chained.head_time _ _ hch h0⟩

/-- Helper bound for the C2 witness: the concrete melody has at least
two notes. -/
theorem C2_timeline_witness_len :
    0 + 1 < (generateMelody ⟨"classical", 1/2, 120, "C", 1⟩ constDraw).notes.length := by
  simp [generateMelody, genNotes_length]

/-- Witness for C2 at a concrete input. -/
theorem C2_timeline_witness :
    ((generateMelody ⟨"classical", 1/2, 120, "C", 1⟩ constDraw).notes.get
        ⟨0, Nat.lt_of_succ_lt C2_timeline_witness_len⟩).time
      ≤ ((generateMelody ⟨"classical", 1/2, 120, "C", 1⟩ constDraw).notes.get
        ⟨0 + 1, C2_timeline_witness_len⟩).time ∧
    ((generateMelody ⟨"classical", 1/2, 120, "C", 1⟩ constDraw).notes.get
        ⟨0, Nat.lt_of_succ_lt C2_timeline_witness_len⟩).time
      + ((generateMelody ⟨"classical", 1/2, 120, "C", 1⟩ constDraw).notes.get
        ⟨0, Nat.lt_of_succ_lt C2_timeline_witness_len⟩).duration
      = ((generateMelody ⟨"classical", 1/2, 120, "C", 1⟩ constDraw).notes.get
        ⟨0 + 1, C2_timeline_witness_len⟩).time ∧
    ∀ h0 : 0 < (generateMelody ⟨"classical", 1/2, 120, "C", 1⟩ constDraw).notes.length,
      ((generateMelody ⟨"classical", 1/2, 120, "C", 1⟩ constDraw).notes.get ⟨0, h0⟩).time = 0 :=
  C2_timeline ⟨"classical", 1/2, 120, "C", 1⟩ constDraw 0 C2_timeline_witness_len

/-- C5: with creativity in `[0.1, 1]` and uniform draws in `[0,1)`, every
generated note has duration at least `0.125` and an integer velocity in
`[0, 127]`, more precisely in `[60, 60 + 40 * creativity)`. -/
theorem C5_note_bounds (p : GenerationParams) (r : ℕ → Draw)
    (hc1 : 1/10 ≤ p.creativity) (hc2 : p.creativity ≤ 1)
    (hr : ∀ j, 0 ≤ (r j).velU ∧ (r j).velU < 1) :
    ∀ n ∈ (generateMelody p r).notes,
      1/8 ≤ n.duration ∧ 0 ≤ n.velocity ∧ n.velocity ≤ 127 ∧
      60 ≤ n.velocity ∧ ((n.velocity : ℚ)) < 60 + 40 * p.creativity := by
  intro n hn
  have hc : 0 < p.creativity := by linarith
  have hb := genNotes_mem_bounds _ _ _ r hc hr _ _ _ _ n hn
  obtain ⟨hd, hv1, hv2⟩ := hb
  have hv100 : ((n.velocity : ℚ)) < 100 := by linarith
  have hv127 : n.velocity ≤ 127 := by
    have h100 : n.velocity < (100 : ℤ) := by exact_mod_cast hv100
    omega
  exact ⟨hd, by omega, hv127, hv1, hv2⟩

/-- Witness for C5 at a concrete input: the first note of a concrete
generated melody satisfies the bounds. -/
theorem C5_note_bounds_witness :
    1/8 ≤ ((generateMelody ⟨"ambient", 1/2, 90, "Am", 8⟩ constDraw).notes.getD 0 default).duration ∧
    0 ≤ ((generateMelody ⟨"ambient", 1/2, 90, "Am", 8⟩ constDraw).notes.getD 0 default).velocity ∧
    ((generateMelody ⟨"ambient", 1/2, 90, "Am", 8⟩ constDraw).notes.getD 0 default).velocity ≤ 127 ∧
    60 ≤ ((generateMelody ⟨"ambient", 1/2, 90, "Am", 8⟩ constDraw).notes.getD 0 default).velocity ∧
    ((((generateMelody ⟨"ambient", 1/2, 90, "Am", 8⟩ constDraw).notes.getD 0 default).velocity : ℚ))
      < 60 + 40 * (1/2) := by
  have hlen : 0 < (generateMelody ⟨"ambient", 1/2, 90, "Am", 8⟩ constDraw).notes.length := by
    simp [generateMelody, genNotes_length]
  have hmem : (generateMelody ⟨"ambient", 1/2, 90, "Am", 8⟩ constDraw).notes.getD 0 default
      ∈ (generateMelody ⟨"ambient", 1/2, 90, "Am", 8⟩ constDraw).notes := by
    rw [List.getD_eq_getElem _ _ hlen]
    exact List.getElem_mem _
  exact C5_note_bounds ⟨"ambient", 1/2, 90, "Am", 8⟩ constDraw (by norm_num) (by norm_num)
    (fun j => ⟨by norm_num [constDraw], by norm_num [constDraw]⟩) _ hmem

/-- Helper for C6: on the concrete scenario parameters, the generator
runs the loop on the A-minor scale, the ambient settings, 32 iterations,
starting time 0 and starting pitch 76. -/
theorem C6_notes_unfold (r : ℕ → Draw) :
    (generateMelody ⟨"ambient", 1/2, 90, "Am", 8⟩ r).notes
      = genNotes [(69 : ℤ), 71, 72, 74, 76, 77, 79, 81] ⟨2, 1/5⟩ (1/2) r 32 0 0 76 := rfl

/-- C6: the concrete scenario (ambient, creativity 0.5, tempo 90, key Am,
duration 8) yields exactly 32 notes, the first at time 0, every pitch an
A-minor-scale element possibly raised one octave, for every outcome of
the draws. -/
theorem C6_ambient_scenario (r : ℕ → Draw) :
    (generateMelody ⟨"ambient", 1/2, 90, "Am", 8⟩ r).notes.length = 32 ∧
    (generateMelody ⟨"ambient", 1/2, 90, "Am", 8⟩ r).notes.headI.time = 0 ∧
    ∀ n ∈ (generateMelody ⟨"ambient", 1/2, 90, "Am", 8⟩ r).notes,
      n.pitch ∈ [(69 : ℤ), 71, 72, 74, 76, 77, 79, 81] ∨
      n.pitch - 12 ∈ [(69 : ℤ), 71, 72, 74, 76, 77, 79, 81] := by
  rw [C6_notes_unfold]
  refine ⟨genNotes_length _ _ _ _ _ _ _ _, ?_, ?_⟩
  · refine chained_headI _ 0 (genNotes_chained _ _ _ _ _ _ _ _) ?_
    rw [genNotes_length]
    norm_num
  · exact genNotes_mem_pitch _ _ _ _ (by simp) _ _ _ _

/-- C7: unknown genre and key tags fall back to the `classical` and `C`
table entries: for every parameter record and every draw stream, the
generated notes equal those generated after canonicalizing the genre and
key tags (known tags kept, unknown ones replaced by the fallbacks), and
no error is possible (the generator is total). -/
theorem C7_unknown_tag_fallback (p : GenerationParams) (r : ℕ → Draw) :
    (generateMelody p r).notes =
      (generateMelody ⟨canonGenre p.genre, p.creativity, p.tempo, canonKey p.key, p.duration⟩ r).notes := by
  have hk : ((scalePatterns.lookup (canonKey p.key)).getD cMajorScale)
      = ((scalePatterns.lookup p.key).getD cMajorScale) := by
    unfold canonKey
    by_cases h : (scalePatterns.lookup p.key).isSome
    · rw [if_pos h]
    · rw [if_neg h]
      rw [Option.not_isSome_iff_eq_none] at h
      rw [h]
      rfl
  have hg : ((genreSettings.lookup (canonGenre p.genre)).getD classicalSettings)
      = ((genreSettings.lookup p.genre).getD classicalSettings) := by
    unfold canonGenre
    by_cases h : (genreSettings.lookup p.genre).isSome
    · rw [if_pos h]
    · rw [if_neg h]
      rw [Option.not_isSome_iff_eq_none] at h
      rw [h]
      rfl
  simp only [generateMelody]
  rw [hk, hg]

/-- C10: the two versions of the generator, from part_000 and part_001,
return identical melodies on every parameter record and draw stream. -/
theorem C10_versions_equivalent (p : GenerationParams) (r : ℕ → Draw) :
    generateMelody p r = V1.generateMelody p r := by
  simp only [generateMelody, V1.generateMelody]
  rw [show V1.scalePatterns = scalePatterns from rfl,
    show V1.cMajorScale = cMajorScale from rfl,
    show V1.genreSettings = genreSettings from rfl,
    show V1.classicalSettings = classicalSettings from rfl,
    genNotes_eq_v1]
